import Mathlib

/-!
Verification development for the CLARA chat client
(`ChatInterface`, `difyService`, `sw.js`, `PulseInterface`).

The TypeScript sources are embedded shallowly: React state updates become
explicit state passing, `localStorage` becomes an association list, the
Dify backend call becomes an explicit outcome parameter, and the SSE byte
stream becomes a list of character chunks.
-/

namespace Clara

/-! ## localStorage model (association list keyed by strings) -/

def lsGet (st : List (String × String)) (k : String) : Option String :=
  (st.find? (fun p => p.1 = k)).map (fun p => p.2)

def lsSet (st : List (String × String)) (k v : String) : List (String × String) :=
  if (st.find? (fun p => p.1 = k)).isSome then
    st.map (fun p => if p.1 = k then (k, v) else p)
  else
    st ++ [(k, v)]

def lsRemove (st : List (String × String)) (k : String) : List (String × String) :=
  st.filter (fun p => p.1 ≠ k)

/-! ## Chat data model (src/types.ts) -/

inductive Role where
  | user
  | assistant
  | system
deriving DecidableEq, Repr

inductive FileType where
  | image
  | document
  | audio
  | video
deriving DecidableEq, Repr

structure UploadedFile where
  id : String
  name : String
  url : Option String := none
  ftype : FileType
  mimeType : Option String := none
  isUploading : Bool := false
deriving DecidableEq, Repr

structure Message where
  id : String
  role : Role
  content : String
  timestamp : Nat
  files : List UploadedFile := []
  suggestedQuestions : List String := []
deriving DecidableEq, Repr

inductive Mode where
  | research
  | scribe
deriving DecidableEq, Repr

def Mode.str : Mode → String
  | .research => "research"
  | .scribe => "scribe"

/-- The component state of `ChatInterface` that the claims talk about,
together with the browser's local storage. -/
structure ChatState where
  messages : List Message
  inputValue : String
  isLoading : Bool
  conversationId : Option String
  files : List UploadedFile
  storage : List (String × String)
deriving DecidableEq, Repr

/-- Result object produced by `sendMessageToDify` (blocking or accumulated
streaming response). An empty `id` models a falsy `response.id`. -/
structure DifyResponse where
  id : String
  answer : String
  conversation_id : Option String
deriving DecidableEq, Repr

/-- Outcome of the awaited backend call inside `handleSendMessage`:
either the promise resolves with a response, or it rejects with an error
whose `message` may be absent (falsy). -/
inductive SendOutcome where
  | success (resp : DifyResponse)
  | failure (errMessage : Option String)
deriving DecidableEq, Repr

/-- JS string trim on the model's strings: drop leading and trailing
whitespace. -/
def strTrim (s : String) : String :=
  ⟨(s.data.dropWhile Char.isWhitespace).reverse.dropWhile Char.isWhitespace |>.reverse⟩

/-- `handleSendMessage` from `ChatInterface`. `now` is `Date.now()` at the
start of the call, `now2` is `Date.now()` when the awaited call settles,
`outcome` is how `sendMessageToDify` settles. Returns the new state and
whether the backend was called. -/
def handleSendMessage (st : ChatState) (text : String) (now : Nat)
    (outcome : SendOutcome) (now2 : Nat) : ChatState × Bool :=
  if st.files.any (fun f => f.isUploading) then (st, false)
  else if ((strTrim text).isEmpty ∧ st.files.length = 0) ∨ st.isLoading then (st, false)
  else
    let userMsg : Message :=
      { id := toString now, role := .user, content := text,
        timestamp := now, files := st.files }
    let st1 : ChatState :=
      { st with messages := st.messages ++ [userMsg],
                inputValue := "", files := [], isLoading := true }
    match outcome with
    | .success resp =>
      let botMsg : Message :=
        { id := if resp.id ≠ "" then resp.id else toString now2,
          role := .assistant, content := resp.answer, timestamp := now2,
          suggestedQuestions := [] }
      ({ st1 with conversationId := resp.conversation_id,
                  messages := st1.messages ++ [botMsg],
                  isLoading := false }, true)
    | .failure em =>
      let errMsg : Message :=
        { id := toString now2, role := .system,
          content := "Error: " ++ em.getD "Could not reach Neural Core." ++ " Please retry.",
          timestamp := now2 }
      ({ st1 with messages := st1.messages ++ [errMsg],
                  isLoading := false }, true)

/-- `clearHistory` from `ChatInterface`: remove the two per-mode storage
keys and clear the in-memory messages and conversation id. (The ensuing
`window.location.reload()` restarts the component; it writes nothing.) -/
def clearHistory (mode : Mode) (st : ChatState) : ChatState :=
  { st with
      storage := lsRemove (lsRemove st.storage ("clara_conv_" ++ mode.str))
                   ("clara_msgs_" ++ mode.str),
      messages := [],
      conversationId := none }

/-! ## History loading (`fetchHistory` in difyService) -/

/-- One item of the Dify `/messages` payload, as used by `fetchHistory`.
An empty `answer` models a falsy `item.answer`. -/
structure HistoryItem where
  id : String
  query : String
  answer : String
  created_at : Nat
deriving DecidableEq, Repr

def historyUserMsg (item : HistoryItem) : Message :=
  { id := "u_" ++ item.id, role := .user, content := item.query,
    timestamp := item.created_at * 1000 }

def historyAssistantMsg (item : HistoryItem) : Message :=
  { id := "a_" ++ item.id, role := .assistant, content := item.answer,
    timestamp := item.created_at * 1000 + 1 }

/-- The messages one payload item contributes: the user message and,
when `item.answer` is non-empty (truthy), the assistant message. -/
def itemMsgs (item : HistoryItem) : List Message :=
  historyUserMsg item ::
    (if item.answer ≠ "" then [historyAssistantMsg item] else [])

/-- The message list built by `fetchHistory` from the payload items
(`data.data`, newest first): iterate in reverse, pushing each item's
messages. -/
def historyMessages (items : List HistoryItem) : List Message :=
  items.reverse.flatMap itemMsgs

/-- The welcome message placed by `initSession` when no conversation id is
saved. -/
def welcomeMsg (openingStatement : String) (suggested : List String) (now : Nat) :
    Message :=
  { id := "welcome", role := .assistant, content := openingStatement,
    timestamp := now, suggestedQuestions := suggested }

/-! ## The operations that modify the message list -/

/-- Every operation of `ChatInterface` that replaces or extends the
`messages` state: setting the initial welcome message, loading remote
history, a send (which appends the user entry and then the assistant or
system-error entry), and clearing. -/
inductive ChatOp where
  | initWelcome (openingStatement : String) (suggested : List String) (now : Nat)
  | loadHistory (items : List HistoryItem)
  | send (text : String) (now : Nat) (outcome : SendOutcome) (now2 : Nat)
  | clear (mode : Mode)
deriving Repr

def applyOp (op : ChatOp) (st : ChatState) : ChatState :=
  match op with
  | .initWelcome opening suggested now =>
      { st with messages := [welcomeMsg opening suggested now] }
  | .loadHistory items => { st with messages := historyMessages items }
  | .send text now outcome now2 => (handleSendMessage st text now outcome now2).1
  | .clear mode => clearHistory mode st

def msgIds (msgs : List Message) : List String := msgs.map Message.id

/-! ## Service worker fetch handler (src/sw.js) -/

/-- JS `String.prototype.includes`: substring containment. -/
def containsSubstr (s pat : String) : Bool := decide (pat.data <:+: s.data)

def CDN_DOMAINS : List String :=
  ["aistudiocdn.com", "esm.run", "fonts.googleapis.com", "fonts.gstatic.com",
   "cdn.tailwindcss.com", "cdn-icons-png.flaticon.com"]

/-- `Response.type` values the handler can see; `filtered` stands for the
cross-origin filtered kind. -/
inductive ResponseType where
  | basic
  | cors
  | filtered
  | other
deriving DecidableEq, Repr

/-- The parts of a `Response` the handler inspects. -/
structure SwResponse where
  ok : Bool
  status : Nat
  rtype : ResponseType
deriving DecidableEq, Repr

/-- The parts of a fetch-event request the handler inspects, plus the
outcome the network would give for it (`none` models a rejected
`fetch`). -/
structure FetchEvent where
  urlPathname : String
  urlHostname : String
  reqKey : String
  network : Option SwResponse
deriving DecidableEq, Repr

/-- Runtime cache keyed by request. -/
abbrev SwCache := List (String × SwResponse)

def cacheMatch (cache : SwCache) (key : String) : Option SwResponse :=
  (cache.find? (fun p => p.1 = key)).map (fun p => p.2)

def cachePut (cache : SwCache) (key : String) (resp : SwResponse) :
    SwCache := cache ++ [(key, resp)]

/-- Outcome of the fetch handler: `none` means the handler returned
without calling `respondWith`; `some (r, c)` means it responded `r`
(`none` standing for an undefined / rejected response) with `c` the cache
afterwards. -/
abbrev SwOutcome := Option (Option SwResponse × SwCache)

/-- The stale-while-revalidate branch: answer from cache when present,
fire the network fetch regardless and cache its response when `ok`; a
network failure is swallowed (the promise resolves `undefined`). -/
def swrRespond (ev : FetchEvent) (cache : SwCache) : Option SwResponse × SwCache :=
  let cached := cacheMatch cache ev.reqKey
  let cache' :=
    match ev.network with
    | some r => if r.ok then cachePut cache ev.reqKey r else cache
    | none => cache
  match cached with
  | some c => (some c, cache')
  | none => (ev.network, cache')

/-- The cache-first branch: answer from cache when present (no network
traffic); otherwise go to the network and cache the response when it is a
200 basic response. -/
def cacheFirstRespond (ev : FetchEvent) (cache : SwCache) :
    Option SwResponse × SwCache :=
  match cacheMatch cache ev.reqKey with
  | some c => (some c, cache)
  | none =>
    match ev.network with
    | none => (none, cache)
    | some r =>
      if r.status ≠ 200 ∨ r.rtype ≠ .basic then (some r, cache)
      else (some r, cachePut cache ev.reqKey r)

/-- The fetch event listener of sw.js. -/
def swFetchHandler (ev : FetchEvent) (cache : SwCache) : SwOutcome :=
  if containsSubstr ev.urlPathname "/v1/" then none
  else if CDN_DOMAINS.any (fun d => containsSubstr ev.urlHostname d) then
    some (swrRespond ev cache)
  else
    some (cacheFirstRespond ev cache)

/-! ## Default prompt substitution (`sendMessageToDify` in difyService) -/

/-- A file descriptor as passed to `sendMessageToDify` (its `type` field
is a string there). -/
structure DifyFile where
  ftype : String
  transfer_method : String
  upload_file_id : Option String := none
  url : Option String := none
deriving DecidableEq, Repr

/-- The `finalQuery` computation at the top of `sendMessageToDify`: keep
the caller's query unless its trim is empty and files are attached, in
which case substitute a default prompt by file-type priority. -/
def finalQuery (query : String) (files : List DifyFile) : String :=
  if (strTrim query).isEmpty ∧ files.length > 0 then
    let fileTypes := files.map DifyFile.ftype
    if fileTypes.contains "image" then "Please analyze the attached image."
    else if fileTypes.contains "audio" then "Please transcribe and analyze the attached audio."
    else "Please analyze the attached document."
  else query

/-! ## Sentiment heuristic (`analyzeSentiment` in PulseInterface) -/

inductive Sentiment where
  | neutral
  | positive
  | negative
deriving DecidableEq, Repr

def positiveWords : List (List Char) :=
  ["good".data, "great".data, "better".data, "fine".data, "happy".data,
   "improving".data, "resolved".data, "thanks".data, "excellent".data,
   "relief".data, "love".data, "wonderful".data, "yes".data, "ok".data,
   "calm".data]

def negativeWords : List (List Char) :=
  ["bad".data, "pain".data, "worse".data, "hurt".data, "sick".data,
   "ill".data, "symptom".data, "severe".data, "dizzy".data, "headache".data,
   "fever".data, "problem".data, "hard".data, "difficult".data, "no".data,
   "sad".data, "scared".data, "worried".data, "emergency".data]

/-- A character matched by the regex class `[\s,.!?]`. -/
def isSep (c : Char) : Bool := c.isWhitespace || c = ',' || c = '.' || c = '!' || c = '?'

/-- JS `split(/[\s,.!?]+/)`: split on maximal nonempty runs of separator
characters. -/
def splitTokens : List Char → List (List Char)
  | [] => [[]]
  | c :: rest =>
    if isSep c then
      match rest with
      | [] => [[], []]
      | c' :: _ =>
        if isSep c' then splitTokens rest else [] :: splitTokens rest
    else
      match splitTokens rest with
      | [] => [[c]]
      | t :: ts => (c :: t) :: ts

/-- The `forEach` accumulation of the sentiment score. -/
def sentimentScore (tokens : List (List Char)) : Int :=
  tokens.foldl (fun score t =>
    let s1 := if t ∈ positiveWords then score + 1 else score
    if t ∈ negativeWords then s1 - 1 else s1) 0

/-- `analyzeSentiment` from PulseInterface. -/
def analyzeSentiment (text : List Char) : Sentiment :=
  let tokens := splitTokens (text.map Char.toLower)
  let score := sentimentScore tokens
  if score > 0 then .positive
  else if score < 0 then .negative
  else .neutral

/-! ## PCM16 encoding (`createBlob` in PulseInterface)

The float samples are modelled exactly as rationals; `Math.min`,
`Math.max` and the two scalings are exact on them. -/

/-- The per-sample computation of `createBlob`:
`s = Math.max(-1, Math.min(1, x)); s < 0 ? s * 0x8000 : s * 0x7FFF`. -/
def pcm16Sample (x : ℚ) : ℚ :=
  let s := max (-1) (min 1 x)
  if s < 0 then s * 32768 else s * 32767

/-- `createBlob`: the PCM16 sample values placed in the `Int16Array`,
and the mime type of the returned blob. -/
def createBlob (data : List ℚ) (sampleRate : ℕ) : List ℚ × String :=
  (data.map pcm16Sample, "audio/pcm;rate=" ++ toString sampleRate)

/-! ## SSE stream accumulation (`sendMessageToDify` in Landing.tsx)

The byte stream is modelled as a list of character chunks (the
`TextDecoder` with `stream: true` re-assembles split code points, so
chunk boundaries fall on character boundaries). `JSON.parse` plus field
access is an oracle `parse` mapping the text after `data: ` to the event
object, `none` modelling a parse error (caught and ignored). -/

/-- The fields of a parsed Dify stream event that the accumulator reads.
Empty strings model absent / falsy fields. -/
structure DifyStreamData where
  event : String
  answer : String
  conversation_id : String
  id : String
deriving DecidableEq, Repr

/-- The accumulator variables of the streaming loop. -/
structure SSEState where
  fullAnswer : List Char
  resultConversationId : Option String
  resultId : String
deriving DecidableEq, Repr

/-- Initial accumulator state: empty answer, the caller's conversation
id, empty result id. -/
def initSSE (conversationId : Option String) : SSEState :=
  ⟨[], conversationId, ""⟩

/-- JS `line.startsWith(pat)` on character lists. -/
def startsWithChars : List Char → List Char → Bool
  | [], _ => true
  | _ :: _, [] => false
  | p :: ps, c :: cs => p = c && startsWithChars ps cs

/-- JS `String.prototype.trim` on character lists. -/
def trimChars (l : List Char) : List Char :=
  ((l.dropWhile Char.isWhitespace).reverse.dropWhile Char.isWhitespace).reverse

/-- The body of `for (const line of lines) { ... }` in the streaming
loop: skip blank lines, handle `data: ` lines, accumulate
message/agent_message answers. A thrown `error` event and a JSON parse
failure are both caught by the inner `catch` and leave the state
unchanged. -/
def processLine (parse : List Char → Option DifyStreamData)
    (st : SSEState) (line : List Char) : SSEState :=
  if (trimChars line).isEmpty then st
  else if startsWithChars "data: ".data line then
    let jsonStr := line.drop 6
    if jsonStr = "[DONE]".data then st
    else
      match parse jsonStr with
      | none => st
      | some d =>
        if d.event = "message" ∨ d.event = "agent_message" then
          { fullAnswer := st.fullAnswer ++ d.answer.data,
            resultConversationId :=
              if d.conversation_id ≠ "" then some d.conversation_id
              else st.resultConversationId,
            resultId := if d.id ≠ "" then d.id else st.resultId }
        else st
  else st

/-- JS `buffer.split('\n')`: always a nonempty list of newline-free
pieces. -/
def splitLines : List Char → List (List Char)
  | [] => [[]]
  | c :: rest =>
    if c = '\n' then [] :: splitLines rest
    else
      match splitLines rest with
      | [] => [[c]]
      | l :: ls => (c :: l) :: ls

/-- One iteration of `while (true)` for one decoded chunk: extend the
buffer, split on newlines, keep the trailing partial line, process the
complete lines. -/
def drainStep (parse : List Char → Option DifyStreamData)
    (acc : SSEState × List Char) (chunk : List Char) : SSEState × List Char :=
  let parts := splitLines (acc.2 ++ chunk)
  (parts.dropLast.foldl (processLine parse) acc.1, parts.getLastD [])

/-- The whole streaming loop over the chunks of the response body; the
trailing buffer is discarded when the reader reports `done`. -/
def drainStream (parse : List Char → Option DifyStreamData)
    (init : SSEState) (chunks : List (List Char)) : SSEState :=
  (chunks.foldl (drainStep parse) (init, [])).1

/-- Modelled from the claim's wording: the answer text contributed by one
complete line — the `answer` field of its parsed JSON when the line
starts with `data: `, is not the `[DONE]` sentinel, parses, and carries
event `message` or `agent_message`; nothing otherwise. -/
def lineAnswer (parse : List Char → Option DifyStreamData)
    (line : List Char) : List Char :=
  if startsWithChars "data: ".data line then
    if line.drop 6 = "[DONE]".data then []
    else
      match parse (line.drop 6) with
      | none => []
      | some d =>
        if d.event = "message" ∨ d.event = "agent_message" then d.answer.data
        else []
  else []

/-- Modelled from the claim's wording: parse the whole stream content at
once — split it on newlines, drop the trailing partial line, and
concatenate the answers of the accumulating lines. -/
def wholeTextAnswer (parse : List Char → Option DifyStreamData)
    (content : List Char) : List Char :=
  ((splitLines content).dropLast.map (lineAnswer parse)).flatten

/-- Token counts used to state the sentiment claim. -/
def posTokenCount (tokens : List (List Char)) : Nat :=
  tokens.countP (fun t => decide (t ∈ positiveWords))

def negTokenCount (tokens : List (List Char)) : Nat :=
  tokens.countP (fun t => decide (t ∈ negativeWords))

/-- A reachable state in research mode: the service helper `getUserId`
has written `clara_user_id`, and the session effect has persisted the
conversation id and messages. -/
def c6State : ChatState :=
  { messages := [⟨"welcome", .assistant, "System Online.", 1, [], []⟩],
    inputValue := "",
    isLoading := false,
    conversationId := some "c1",
    files := [],
    storage := [("clara_user_id", "user_abc123"), ("clara_conv_research", "c1"),
                ("clara_msgs_research", "[...]")] }

/-- A state with a single message whose id is the string `"100"` —
reachable, e.g. a previous send at millisecond 100. -/
def c7State : ChatState :=
  { messages := [⟨"100", .assistant, "earlier answer", 100, [], []⟩],
    inputValue := "", isLoading := false, conversationId := none,
    files := [], storage := [] }

/-- The id strings one history item contributes. -/
def itemIds (item : HistoryItem) : List String :=
  ("u_" ++ item.id) :: (if item.answer ≠ "" then ["a_" ++ item.id] else [])

/-- The freshness side conditions under which each message-list operation
keeps ids pairwise distinct: remote history items have pairwise distinct
ids, and a send's two minted ids (the timestamp strings, or the
backend-provided id) are new and different from each other. -/
def opFresh : ChatOp → ChatState → Prop
  | .initWelcome _ _ _, _ => True
  | .clear _, _ => True
  | .loadHistory items, _ => (items.map HistoryItem.id).Nodup
  | .send _ now outcome now2, st =>
    match outcome with
    | .success resp =>
      let uid := toString now
      let bid := if resp.id = "" then toString now2 else resp.id
      uid ∉ msgIds st.messages ∧ bid ∉ msgIds st.messages ∧ uid ≠ bid
    | .failure _ =>
      toString now ∉ msgIds st.messages ∧ toString now2 ∉ msgIds st.messages ∧
        toString now ≠ toString now2

/-! ## Theorems for the claims -/

theorem lsGet_cons (p : String × String) (rest : List (String × String)) (k : String) :
    lsGet (p :: rest) k = if p.1 = k then some p.2 else lsGet rest k := by
  by_cases hp : p.1 = k
  · simp [lsGet, List.find?_cons, hp]
  · simp [lsGet, List.find?_cons, hp]

theorem lsRemove_cons (p : String × String) (rest : List (String × String)) (k : String) :
    lsRemove (p :: rest) k = if p.1 = k then lsRemove rest k else p :: lsRemove rest k := by
  by_cases hp : p.1 = k
  · simp [lsRemove, List.filter_cons, hp]
  · simp [lsRemove, List.filter_cons, hp]

theorem lsGet_lsRemove_ne (st : List (String × String)) (k k' : String) (h : k' ≠ k) :
    lsGet (lsRemove st k) k' = lsGet st k' := by
  induction st with
  | nil => rfl
  | cons p rest ih =>
    rw [lsRemove_cons, lsGet_cons]
    by_cases hp : p.1 = k
    · have hk : ¬ k = k' := fun e => h e.symm
      simp [hp, hk, ih]
    · rw [if_neg hp, lsGet_cons]
      by_cases hk' : p.1 = k'
      · simp [hk']
      · simp [hk', ih]

theorem lsGet_lsRemove_self (st : List (String × String)) (k : String) :
    lsGet (lsRemove st k) k = none := by
  induction st with
  | nil => rfl
  | cons p rest ih =>
    rw [lsRemove_cons]
    by_cases hp : p.1 = k
    · simp [hp, ih]
    · rw [if_neg hp, lsGet_cons, if_neg hp]
      exact ih

theorem sendGuard_false (st : ChatState) (text : String)
    (hne : (strTrim text).isEmpty = false ∨ st.files ≠ [])
    (hld : st.isLoading = false) :
    ¬ ((((strTrim text).isEmpty : Prop) ∧ st.files.length = 0) ∨ (st.isLoading : Prop)) := by
  rintro (⟨h1, h2⟩ | h2)
  · rcases hne with h | h
    · rw [h] at h1; cases h1
    · exact h (List.length_eq_zero.mp h2)
  · rw [hld] at h2; cases h2

/-- C1: a send whose guards pass and whose backend call resolves appends
exactly one user entry and then one assistant entry to the message list,
and changes it in no other way. -/
theorem handleSendMessage_success_appends (st : ChatState) (text : String)
    (now : Nat) (resp : DifyResponse) (now2 : Nat)
    (hup : st.files.any (fun f => f.isUploading) = false)
    (hne : (strTrim text).isEmpty = false ∨ st.files ≠ [])
    (hld : st.isLoading = false) :
    ∃ u b, (handleSendMessage st text now (.success resp) now2).1.messages
        = st.messages ++ [u, b] ∧ u.role = Role.user ∧ b.role = Role.assistant := by
  refine ⟨{ id := toString now, role := .user, content := text,
            timestamp := now, files := st.files },
          { id := if resp.id ≠ "" then resp.id else toString now2,
            role := .assistant, content := resp.answer, timestamp := now2,
            suggestedQuestions := [] }, ?_, rfl, rfl⟩
  unfold handleSendMessage
  rw [if_neg (by rw [hup]; simp), if_neg (sendGuard_false st text hne hld)]
  simp

/-- Witness for C1 at a concrete send. -/
theorem handleSendMessage_success_appends_witness :
    ∃ u b, (handleSendMessage ⟨[], "", false, none, [], []⟩ "hello" 1
        (.success ⟨"mid", "hi there", some "c9"⟩) 2).1.messages
        = ([] : List Message) ++ [u, b] ∧ u.role = Role.user ∧ b.role = Role.assistant :=
  handleSendMessage_success_appends ⟨[], "", false, none, [], []⟩ "hello" 1
    ⟨"mid", "hi there", some "c9"⟩ 2 (by decide) (by left; decide) rfl

/-- C4: a send whose guards pass and whose backend call rejects appends
exactly the user entry and then one system entry carrying an error text,
and no assistant entry. -/
theorem handleSendMessage_failure_appends (st : ChatState) (text : String)
    (now : Nat) (errMessage : Option String) (now2 : Nat)
    (hup : st.files.any (fun f => f.isUploading) = false)
    (hne : (strTrim text).isEmpty = false ∨ st.files ≠ [])
    (hld : st.isLoading = false) :
    ∃ u e, (handleSendMessage st text now (.failure errMessage) now2).1.messages
        = st.messages ++ [u, e] ∧ u.role = Role.user ∧ e.role = Role.system ∧
      (∃ m, e.content = "Error: " ++ m ++ " Please retry.") ∧
      u.role ≠ Role.assistant ∧ e.role ≠ Role.assistant := by
  refine ⟨{ id := toString now, role := .user, content := text,
            timestamp := now, files := st.files },
          { id := toString now2, role := .system,
            content := "Error: " ++ errMessage.getD "Could not reach Neural Core."
              ++ " Please retry.",
            timestamp := now2 }, ?_, rfl, rfl,
    ⟨errMessage.getD "Could not reach Neural Core.", rfl⟩, by simp, by simp⟩
  unfold handleSendMessage
  rw [if_neg (by rw [hup]; simp), if_neg (sendGuard_false st text hne hld)]
  simp

/-- Witness for C4 at a concrete failing send. -/
theorem handleSendMessage_failure_appends_witness :
    ∃ u e, (handleSendMessage ⟨[], "", false, none, [], []⟩ "hello" 1
        (.failure (some "boom")) 2).1.messages
        = ([] : List Message) ++ [u, e] ∧ u.role = Role.user ∧ e.role = Role.system ∧
      (∃ m, e.content = "Error: " ++ m ++ " Please retry.") ∧
      u.role ≠ Role.assistant ∧ e.role ≠ Role.assistant :=
  handleSendMessage_failure_appends ⟨[], "", false, none, [], []⟩ "hello" 1
    (some "boom") 2 (by decide) (by left; decide) rfl

/-- C5: a call of `handleSendMessage` with an empty trimmed text and no
attached files leaves the whole state (messages, input value, files,
conversation id, loading flag and local storage) unchanged and makes no
backend call. -/
theorem handleSendMessage_noop (st : ChatState) (text : String) (now : Nat)
    (outcome : SendOutcome) (now2 : Nat)
    (h1 : strTrim text = "") (h2 : st.files = []) :
    handleSendMessage st text now outcome now2 = (st, false) := by
  unfold handleSendMessage
  rw [if_neg (by rw [h2]; simp)]
  rw [if_pos (Or.inl ⟨by rw [h1]; rfl, by rw [h2]; rfl⟩)]

/-- Witness for C5 at a concrete whitespace-only input. -/
theorem handleSendMessage_noop_witness :
    handleSendMessage ⟨[], "  ", false, some "c", [], [("k", "v")]⟩ "  " 7
      (.success ⟨"i", "a", none⟩) 8
      = (⟨[], "  ", false, some "c", [], [("k", "v")]⟩, false) :=
  handleSendMessage_noop _ "  " 7 _ 8 (by decide) rfl

/-- C2: the fetch handler decides, in order, exactly one of three static
policies: bypass (no `respondWith`) when the pathname contains `/v1/`;
stale-while-revalidate (cached response when present, network fetch also
issued and cached when ok) when the hostname contains a listed CDN
domain; otherwise cache-first with network fallback. -/
theorem swFetchHandler_three_policies (ev : FetchEvent) (cache : SwCache) :
    (containsSubstr ev.urlPathname "/v1/" = true →
      swFetchHandler ev cache = none) ∧
    (containsSubstr ev.urlPathname "/v1/" = false →
      CDN_DOMAINS.any (fun d => containsSubstr ev.urlHostname d) = true →
      swFetchHandler ev cache = some (swrRespond ev cache) ∧
      (∀ c, cacheMatch cache ev.reqKey = some c → (swrRespond ev cache).1 = some c) ∧
      (∀ r, ev.network = some r → r.ok = true →
        (swrRespond ev cache).2 = cachePut cache ev.reqKey r)) ∧
    (containsSubstr ev.urlPathname "/v1/" = false →
      CDN_DOMAINS.any (fun d => containsSubstr ev.urlHostname d) = false →
      swFetchHandler ev cache = some (cacheFirstRespond ev cache) ∧
      (∀ c, cacheMatch cache ev.reqKey = some c →
        cacheFirstRespond ev cache = (some c, cache)) ∧
      (cacheMatch cache ev.reqKey = none → ev.network = none →
        cacheFirstRespond ev cache = (none, cache))) := by
  refine ⟨fun h1 => ?_, fun h1 h2 => ⟨?_, fun c hc => ?_, fun r hr hok => ?_⟩,
    fun h1 h2 => ⟨?_, fun c hc => ?_, fun hc hn => ?_⟩⟩
  · unfold swFetchHandler; rw [if_pos h1]
  · unfold swFetchHandler; rw [if_neg (by simp [h1]), if_pos h2]
  · unfold swrRespond; rw [hc]
  · unfold swrRespond
    rw [hr]
    simp only [hok, if_true]
    cases cacheMatch cache ev.reqKey <;> rfl
  · unfold swFetchHandler; rw [if_neg (by simp [h1]), if_neg (by simp [h2])]
  · unfold cacheFirstRespond; rw [hc]
  · unfold cacheFirstRespond; rw [hc, hn]

/-- Witness for C2: the API path is bypassed, a CDN host gets
stale-while-revalidate, everything else cache-first. -/
theorem swFetchHandler_three_policies_witness :
    swFetchHandler ⟨"/v1/chat-messages", "dify.thiennn.icu", "k1", none⟩ [] = none ∧
    swFetchHandler ⟨"/css2", "fonts.googleapis.com", "k2", none⟩ []
      = some (swrRespond ⟨"/css2", "fonts.googleapis.com", "k2", none⟩ []) ∧
    swFetchHandler ⟨"/index.html", "clara.app", "k3", none⟩ []
      = some (cacheFirstRespond ⟨"/index.html", "clara.app", "k3", none⟩ []) :=
  ⟨(swFetchHandler_three_policies ⟨"/v1/chat-messages", "dify.thiennn.icu", "k1", none⟩ []).1
      (by decide),
   ((swFetchHandler_three_policies ⟨"/css2", "fonts.googleapis.com", "k2", none⟩ []).2.1
      (by decide) (by decide)).1,
   ((swFetchHandler_three_policies ⟨"/index.html", "clara.app", "k3", none⟩ []).2.2
      (by decide) (by decide)).1⟩

/-- C9: the query placed in the request body is the caller's query
whenever its trim is non-empty; with an empty trim and attached files it
is a fixed default prompt chosen by file-type priority image, then audio,
then document. -/
theorem finalQuery_spec (query : String) (files : List DifyFile) :
    ((strTrim query).isEmpty = false → finalQuery query files = query) ∧
    ((strTrim query).isEmpty = true → files ≠ [] →
      ((∃ f ∈ files, f.ftype = "image") →
        finalQuery query files = "Please analyze the attached image.") ∧
      (¬ (∃ f ∈ files, f.ftype = "image") → (∃ f ∈ files, f.ftype = "audio") →
        finalQuery query files = "Please transcribe and analyze the attached audio.") ∧
      (¬ (∃ f ∈ files, f.ftype = "image") → ¬ (∃ f ∈ files, f.ftype = "audio") →
        finalQuery query files = "Please analyze the attached document.")) := by
  constructor
  · intro h
    unfold finalQuery
    rw [if_neg]
    rintro ⟨h1, -⟩
    rw [h] at h1; cases h1
  · intro h hne
    have hlen : 0 < files.length := by
      cases files with
      | nil => exact absurd rfl hne
      | cons f fs => simp
    have himg : (files.map DifyFile.ftype).contains "image" = true
        ↔ ∃ f ∈ files, f.ftype = "image" := by
      simp [List.contains_iff_exists_mem_beq, List.mem_map]
    have haud : (files.map DifyFile.ftype).contains "audio" = true
        ↔ ∃ f ∈ files, f.ftype = "audio" := by
      simp [List.contains_iff_exists_mem_beq, List.mem_map]
    refine ⟨fun hi => ?_, fun hni ha => ?_, fun hni hna => ?_⟩
    · unfold finalQuery
      rw [if_pos ⟨h, hlen⟩, if_pos (himg.mpr hi)]
    · unfold finalQuery
      rw [if_pos ⟨h, hlen⟩, if_neg (by rw [himg]; exact hni),
        if_pos (haud.mpr ha)]
    · unfold finalQuery
      rw [if_pos ⟨h, hlen⟩, if_neg (by rw [himg]; exact hni),
        if_neg (by rw [haud]; exact hna)]

/-- Witness for C9: an empty query with a document and an audio file gets
the audio prompt; a non-empty query is kept. -/
theorem finalQuery_spec_witness :
    finalQuery "what is this" [⟨"document", "remote_url", none, none⟩] = "what is this" ∧
    finalQuery " " [⟨"document", "remote_url", none, none⟩,
      ⟨"audio", "remote_url", none, none⟩]
      = "Please transcribe and analyze the attached audio." :=
  ⟨(finalQuery_spec "what is this" [⟨"document", "remote_url", none, none⟩]).1 (by decide),
   ((finalQuery_spec " " [⟨"document", "remote_url", none, none⟩,
        ⟨"audio", "remote_url", none, none⟩]).2 (by decide) (by decide)).2.1
      (by decide) ⟨⟨"audio", "remote_url", none, none⟩, by decide, rfl⟩⟩

theorem pcm16Sample_def (x : ℚ) :
    pcm16Sample x = if max (-1) (min 1 x) < 0 then max (-1) (min 1 x) * 32768
      else max (-1) (min 1 x) * 32767 := rfl

/-- C10: each encoded sample is the input clamped to [-1, 1] and scaled
by 32768 when negative, 32767 otherwise; every sample value lies in the
Int16 range; the mime type is `audio/pcm;rate=` followed by the sample
rate. -/
theorem createBlob_spec (data : List ℚ) (sampleRate : ℕ) :
    (createBlob data sampleRate).1 = data.map pcm16Sample ∧
    (createBlob data sampleRate).2 = "audio/pcm;rate=" ++ toString sampleRate ∧
    ∀ y ∈ (createBlob data sampleRate).1, -32768 ≤ y ∧ y ≤ 32767 := by
  refine ⟨rfl, rfl, ?_⟩
  intro y hy
  simp only [createBlob, List.mem_map] at hy
  obtain ⟨x, -, rfl⟩ := hy
  rw [pcm16Sample_def]
  have hs1 : (-1 : ℚ) ≤ max (-1) (min 1 x) := le_max_left _ _
  have hs2 : max (-1 : ℚ) (min 1 x) ≤ 1 := max_le (by norm_num) (min_le_left _ _)
  by_cases h : max (-1 : ℚ) (min 1 x) < 0
  · rw [if_pos h]
    constructor <;> nlinarith
  · rw [if_neg h]
    push_neg at h
    constructor <;> nlinarith

/-- Witness for C10 at a concrete sample list. -/
theorem createBlob_spec_witness :
    pcm16Sample (-(3 : ℚ)/4) ∈ (createBlob [-(3 : ℚ)/4] 16000).1 ∧
    (-32768 ≤ pcm16Sample (-(3 : ℚ)/4) ∧ pcm16Sample (-(3 : ℚ)/4) ≤ 32767) :=
  ⟨by simp [createBlob],
   (createBlob_spec [-(3 : ℚ)/4] 16000).2.2 _ (by simp [createBlob])⟩

theorem sentimentScore_eq (tokens : List (List Char)) :
    sentimentScore tokens = (posTokenCount tokens : Int) - negTokenCount tokens := by
  suffices h : ∀ (init : Int), tokens.foldl (fun score t =>
      let s1 := if t ∈ positiveWords then score + 1 else score
      if t ∈ negativeWords then s1 - 1 else s1) init
      = init + posTokenCount tokens - negTokenCount tokens by
    simpa [sentimentScore] using h 0
  induction tokens with
  | nil => intro init; simp [posTokenCount, negTokenCount]
  | cons t ts ih =>
    intro init
    simp only [List.foldl_cons, posTokenCount, negTokenCount, List.countP_cons] at *
    rw [ih]
    by_cases hp : t ∈ positiveWords <;> by_cases hn : t ∈ negativeWords <;>
      simp [hp, hn] <;> omega

/-- C8: the sentiment heuristic lowercases the input, splits it on
whitespace and the punctuation `, . ! ?`, and answers positive, negative
or neutral exactly as the count of positive-list tokens compares with the
count of negative-list tokens. -/
theorem analyzeSentiment_spec (text : List Char) :
    (analyzeSentiment text = Sentiment.positive ↔
      negTokenCount (splitTokens (text.map Char.toLower))
        < posTokenCount (splitTokens (text.map Char.toLower))) ∧
    (analyzeSentiment text = Sentiment.negative ↔
      posTokenCount (splitTokens (text.map Char.toLower))
        < negTokenCount (splitTokens (text.map Char.toLower))) ∧
    (analyzeSentiment text = Sentiment.neutral ↔
      posTokenCount (splitTokens (text.map Char.toLower))
        = negTokenCount (splitTokens (text.map Char.toLower))) := by
  have hs := sentimentScore_eq (splitTokens (text.map Char.toLower))
  simp only [analyzeSentiment]
  rw [hs]
  refine ⟨?_, ?_, ?_⟩ <;> split_ifs with h1 h2 <;> constructor <;> intro h <;>
    first
    | rfl
    | omega
    | (exfalso; omega)
    | (cases h)
    | (exfalso; revert h; simp; omega)

/-- Witness for C8 on concrete phrases. -/
theorem analyzeSentiment_spec_witness :
    analyzeSentiment "Feeling great today, thanks!".data = Sentiment.positive ∧
    analyzeSentiment "severe headache and fever".data = Sentiment.negative ∧
    analyzeSentiment "I feel good but the pain remains".data = Sentiment.neutral :=
  ⟨(analyzeSentiment_spec "Feeling great today, thanks!".data).1.mpr (by decide),
   (analyzeSentiment_spec "severe headache and fever".data).2.1.mpr (by decide),
   (analyzeSentiment_spec "I feel good but the pain remains".data).2.2.mpr (by decide)⟩

/-- C6 counterexample: `clearHistory` does not reset all locally
persisted state — the `clara_user_id` key written by the application's
`getUserId` helper survives it. -/
theorem clearHistory_not_total_reset :
    (clearHistory Mode.research c6State).storage = [("clara_user_id", "user_abc123")] ∧
    lsGet (clearHistory Mode.research c6State).storage "clara_user_id"
      = some "user_abc123" := by
  constructor <;> rfl

/-- C6 as amended: `clearHistory` clears the in-memory messages and
conversation id and removes exactly the two per-mode storage keys
`clara_conv_<mode>` and `clara_msgs_<mode>`; every other storage key
(such as `clara_user_id` or the other mode's keys) is left untouched. -/
theorem clearHistory_spec (mode : Mode) (st : ChatState) :
    (clearHistory mode st).messages = [] ∧
    (clearHistory mode st).conversationId = none ∧
    lsGet (clearHistory mode st).storage ("clara_conv_" ++ mode.str) = none ∧
    lsGet (clearHistory mode st).storage ("clara_msgs_" ++ mode.str) = none ∧
    (∀ k, k ≠ "clara_conv_" ++ mode.str → k ≠ "clara_msgs_" ++ mode.str →
      lsGet (clearHistory mode st).storage k = lsGet st.storage k) := by
  refine ⟨rfl, rfl, ?_, ?_, ?_⟩
  · cases mode <;>
      (rw [show lsGet (clearHistory _ st).storage _
            = lsGet (lsRemove (lsRemove st.storage _) _) _ from rfl]
       rw [lsGet_lsRemove_ne _ _ _ (by decide)]
       exact lsGet_lsRemove_self _ _)
  · exact lsGet_lsRemove_self _ _
  · intro k hk1 hk2
    rw [show (clearHistory mode st).storage
          = lsRemove (lsRemove st.storage ("clara_conv_" ++ mode.str))
              ("clara_msgs_" ++ mode.str) from rfl]
    rw [lsGet_lsRemove_ne _ _ _ hk2, lsGet_lsRemove_ne _ _ _ hk1]

/-- Witness for C6's amended theorem at a concrete state and key. -/
theorem clearHistory_spec_witness :
    (clearHistory Mode.research c6State).messages = [] ∧
    lsGet (clearHistory Mode.research c6State).storage "clara_conv_research" = none ∧
    lsGet (clearHistory Mode.research c6State).storage "clara_user_id"
      = lsGet c6State.storage "clara_user_id" :=
  ⟨(clearHistory_spec Mode.research c6State).1,
   (clearHistory_spec Mode.research c6State).2.2.1,
   (clearHistory_spec Mode.research c6State).2.2.2.2 "clara_user_id"
     (by decide) (by decide)⟩

/-! ## C7: uniqueness of message ids -/

/-- C7 counterexample: a send operation does not always preserve
pairwise-distinct message ids — when `Date.now()` returns a value whose
string form already occurs as an id (here 100), the appended user entry
duplicates it. -/
theorem send_can_duplicate_ids :
    (msgIds c7State.messages).Nodup ∧
    ¬ (msgIds (applyOp (.send "hi" 100 (.success ⟨"", "ans", none⟩) 101)
        c7State).messages).Nodup := by
  constructor
  · decide
  · decide

theorem string_append_left_inj (p x y : String) (h : p ++ x = p ++ y) : x = y := by
  have hd := congrArg String.data h
  rw [String.data_append, String.data_append] at hd
  have hx := List.append_cancel_left hd
  cases x; cases y
  exact congrArg String.mk (by simpa using hx)

theorem u_append_ne_a_append (x y : String) : ("u_" ++ x) ≠ ("a_" ++ y) := by
  intro h
  have hd := congrArg String.data h
  rw [String.data_append, String.data_append] at hd
  simp [show "u_".data = ['u', '_'] from rfl, show "a_".data = ['a', '_'] from rfl] at hd

theorem msgIds_itemMsgs (item : HistoryItem) :
    msgIds (itemMsgs item) = itemIds item := by
  by_cases h : item.answer = "" <;>
    simp [itemMsgs, itemIds, msgIds, h, historyUserMsg, historyAssistantMsg]

theorem msgIds_flatMap (l : List HistoryItem) :
    msgIds (l.flatMap itemMsgs) = l.flatMap itemIds := by
  induction l with
  | nil => rfl
  | cons item rest ih =>
    simp only [List.flatMap_cons, msgIds, List.map_append] at *
    rw [ih]
    have h2 := msgIds_itemMsgs item
    simp only [msgIds] at h2
    rw [h2]

theorem itemIds_nodup (item : HistoryItem) : (itemIds item).Nodup := by
  by_cases h : item.answer = "" <;> simp [itemIds, h]
  exact fun e => u_append_ne_a_append item.id item.id e

theorem mem_itemIds (x : String) (item : HistoryItem) (h : x ∈ itemIds item) :
    x = "u_" ++ item.id ∨ x = "a_" ++ item.id := by
  rcases List.mem_cons.mp h with h1 | h1
  · exact Or.inl h1
  · by_cases ha : item.answer = ""
    · simp [ha] at h1
    · simp [ha] at h1
      exact Or.inr h1

theorem itemIds_disjoint (a b : HistoryItem) (h : a.id ≠ b.id) :
    List.Disjoint (itemIds a) (itemIds b) := by
  intro x hxa hxb
  rcases mem_itemIds x a hxa with h1 | h1 <;> rcases mem_itemIds x b hxb with h2 | h2
  · exact h (string_append_left_inj "u_" a.id b.id (h1 ▸ h2))
  · exact u_append_ne_a_append a.id b.id (h1 ▸ h2)
  · exact u_append_ne_a_append b.id a.id (h2 ▸ h1)
  · exact h (string_append_left_inj "a_" a.id b.id (h1 ▸ h2))

theorem historyMessages_nodup (items : List HistoryItem)
    (h : (items.map HistoryItem.id).Nodup) :
    (msgIds (historyMessages items)).Nodup := by
  rw [historyMessages, msgIds_flatMap]
  rw [List.nodup_flatMap]
  refine ⟨fun item _ => itemIds_nodup item, ?_⟩
  have hrev : (items.reverse.map HistoryItem.id).Nodup := by
    rw [List.map_reverse, List.nodup_reverse]
    exact h
  have hp : items.reverse.Pairwise (fun a b => a.id ≠ b.id) :=
    (List.pairwise_map).mp hrev
  exact hp.imp fun hne => itemIds_disjoint _ _ hne

/-- C7 as amended: every message-list operation (welcome message, history
load, successful send, failed send, clear) preserves pairwise-distinct
message ids, provided the ids it mints are fresh (`opFresh`); without
that proviso the property can fail (see the counterexample). -/
theorem applyOp_preserves_unique_ids (op : ChatOp) (st : ChatState)
    (hn : (msgIds st.messages).Nodup) (hf : opFresh op st) :
    (msgIds (applyOp op st).messages).Nodup := by
  cases op with
  | initWelcome opening suggested now => simp [applyOp, msgIds, welcomeMsg]
  | clear mode => simp [applyOp, clearHistory, msgIds]
  | loadHistory items => exact historyMessages_nodup items hf
  | send text now outcome now2 =>
    cases outcome with
    | success resp =>
      obtain ⟨h1, h2, h3⟩ := hf
      by_cases hg1 : st.files.any (fun f => f.isUploading)
      · simpa [applyOp, handleSendMessage, hg1] using hn
      · by_cases hg2 : (((strTrim text).isEmpty : Prop) ∧ st.files.length = 0)
          ∨ (st.isLoading : Prop)
        · simp only [applyOp, handleSendMessage]
          rw [if_neg hg1, if_pos hg2]
          exact hn
        · simp only [applyOp, handleSendMessage]
          rw [if_neg hg1, if_neg hg2]
          simp only [msgIds, List.map_append, List.append_assoc]
          rw [List.nodup_append]
          refine ⟨hn, by simpa using h3, ?_⟩
          intro x hx hx2
          simp at hx2
          rcases hx2 with h | h <;> subst h
          · exact h1 hx
          · exact h2 hx
    | failure em =>
      obtain ⟨h1, h2, h3⟩ := hf
      by_cases hg1 : st.files.any (fun f => f.isUploading)
      · simpa [applyOp, handleSendMessage, hg1] using hn
      · by_cases hg2 : (((strTrim text).isEmpty : Prop) ∧ st.files.length = 0)
          ∨ (st.isLoading : Prop)
        · simp only [applyOp, handleSendMessage]
          rw [if_neg hg1, if_pos hg2]
          exact hn
        · simp only [applyOp, handleSendMessage]
          rw [if_neg hg1, if_neg hg2]
          simp only [msgIds, List.map_append, List.append_assoc]
          rw [List.nodup_append]
          refine ⟨hn, by simpa using h3, ?_⟩
          intro x hx hx2
          simp at hx2
          rcases hx2 with h | h <;> subst h
          · exact h1 hx
          · exact h2 hx

/-- Witness for C7's amended theorem at a concrete fresh send. -/
theorem applyOp_preserves_unique_ids_witness :
    (msgIds c7State.messages).Nodup ∧
    opFresh (.send "hi" 200 (.success ⟨"", "ans", none⟩) 201) c7State ∧
    (msgIds (applyOp (.send "hi" 200 (.success ⟨"", "ans", none⟩) 201)
      c7State).messages).Nodup :=
  ⟨by decide, ⟨by decide, by decide, by decide⟩,
   applyOp_preserves_unique_ids (.send "hi" 200 (.success ⟨"", "ans", none⟩) 201)
     c7State (by decide) ⟨by decide, by decide, by decide⟩⟩

/-! ## C3: chunked SSE accumulation equals one-shot parsing -/

theorem dropLast_cons_ne_nil {α : Type} (a : α) (l : List α) (h : l ≠ []) :
    (a :: l).dropLast = a :: l.dropLast := by
  cases l with
  | nil => exact absurd rfl h
  | cons x xs => rfl

theorem getLastD_cons_ne_nil {α : Type} (a : α) (l : List α) (d : α) (h : l ≠ []) :
    (a :: l).getLastD d = l.getLastD d := by
  cases l with
  | nil => exact absurd rfl h
  | cons x xs => simp [List.getLastD_eq_getLast?, List.getLast?_cons_cons]

theorem getLastD_singleton {α : Type} (a d : α) : ([a] : List α).getLastD d = a := by
  simp [List.getLastD_eq_getLast?]

theorem dropLast_append_ne_nil {α : Type} (xs ys : List α) (h : ys ≠ []) :
    (xs ++ ys).dropLast = xs ++ ys.dropLast := by
  simp [List.dropLast_append, h]

theorem getLastD_append_ne_nil {α : Type} (xs ys : List α) (d : α) (h : ys ≠ []) :
    (xs ++ ys).getLastD d = ys.getLastD d := by
  simp [List.getLastD_eq_getLast?, List.getLast?_append_of_ne_nil _ h]

theorem splitLines_ne_nil (s : List Char) : splitLines s ≠ [] := by
  cases s with
  | nil => simp [splitLines]
  | cons c rest =>
    simp only [splitLines]
    by_cases hc : c = '\n'
    · simp [hc]
    · rw [if_neg hc]
      rcases h : splitLines rest with _ | ⟨l, ls⟩ <;> simp

theorem splitLines_cons (c : Char) (rest : List Char) :
    splitLines (c :: rest)
      = if c = '\n' then [] :: splitLines rest
        else match splitLines rest with
          | [] => [[c]]
          | l :: ls => (c :: l) :: ls := rfl

theorem splitLines_no_nl (s : List Char) (h : '\n' ∉ s) : splitLines s = [s] := by
  induction s with
  | nil => rfl
  | cons c rest ih =>
    have hc : ¬ c = '\n' := by
      intro e; subst e; exact h (List.mem_cons_self _ _)
    rw [splitLines_cons, if_neg hc, ih (fun hm => h (List.mem_cons_of_mem c hm))]

theorem no_nl_getLastD (s : List Char) : '\n' ∉ (splitLines s).getLastD [] := by
  induction s with
  | nil => simp [splitLines]
  | cons c rest ih =>
    rw [splitLines_cons]
    by_cases hc : c = '\n'
    · rw [if_pos hc, getLastD_cons_ne_nil _ _ _ (splitLines_ne_nil rest)]
      exact ih
    · rw [if_neg hc]
      rcases h : splitLines rest with _ | ⟨l, ls⟩
      · exact absurd h (splitLines_ne_nil rest)
      · rw [h] at ih
        cases ls with
        | nil =>
          rw [getLastD_singleton]
          rw [getLastD_singleton] at ih
          intro hm
          rcases List.mem_cons.mp hm with h1 | h1
          · exact hc h1.symm
          · exact ih h1
        | cons l2 ls2 =>
          rw [getLastD_cons_ne_nil _ _ _ (by simp)]
          rw [getLastD_cons_ne_nil _ _ _ (by simp)] at ih
          exact ih

theorem splitLines_append (a b : List Char) :
    splitLines (a ++ b)
      = (splitLines a).dropLast
        ++ splitLines ((splitLines a).getLastD [] ++ b) := by
  induction a with
  | nil => simp [splitLines]
  | cons c a' ih =>
    by_cases hc : c = '\n'
    · subst hc
      rw [List.cons_append, splitLines_cons, splitLines_cons, if_pos rfl, if_pos rfl]
      rw [dropLast_cons_ne_nil _ _ (splitLines_ne_nil a'),
        getLastD_cons_ne_nil _ _ _ (splitLines_ne_nil a')]
      rw [ih, List.cons_append]
    · rw [List.cons_append, splitLines_cons, splitLines_cons, if_neg hc, if_neg hc]
      rcases h' : splitLines a' with _ | ⟨l, ls⟩
      · exact absurd h' (splitLines_ne_nil a')
      · rw [h'] at ih
        cases ls with
        | nil =>
          rw [ih]
          rw [show ([l] : List (List Char)).dropLast = [] from rfl,
            getLastD_singleton, List.nil_append]
          rw [show (([c :: l] : List (List Char))).dropLast = [] from rfl,
            getLastD_singleton, List.nil_append]
          rw [List.cons_append, splitLines_cons, if_neg hc]
        | cons l2 ls2 =>
          rw [ih, dropLast_cons_ne_nil l (l2 :: ls2) (by simp),
            getLastD_cons_ne_nil l (l2 :: ls2) _ (by simp)]
          show (c :: l) :: ((l2 :: ls2).dropLast ++ splitLines ((l2 :: ls2).getLastD [] ++ b))
              = ((c :: l) :: l2 :: ls2).dropLast
                ++ splitLines (((c :: l) :: l2 :: ls2).getLastD [] ++ b)
          rw [dropLast_cons_ne_nil (c :: l) (l2 :: ls2) (by simp),
            getLastD_cons_ne_nil (c :: l) (l2 :: ls2) [] (by simp), List.cons_append]

theorem foldl_drainStep_eq (parse : List Char → Option DifyStreamData)
    (chunks : List (List Char)) : ∀ (st : SSEState) (buf : List Char),
    '\n' ∉ buf →
    chunks.foldl (drainStep parse) (st, buf)
      = ((splitLines (buf ++ chunks.flatten)).dropLast.foldl (processLine parse) st,
         (splitLines (buf ++ chunks.flatten)).getLastD []) := by
  induction chunks with
  | nil =>
    intro st buf hb
    rw [List.foldl_nil, List.flatten_nil, List.append_nil, splitLines_no_nl buf hb]
    rw [show ([buf] : List (List Char)).dropLast = [] from rfl, getLastD_singleton]
    rfl
  | cons chunk cs ih =>
    intro st buf hb
    rw [List.foldl_cons]
    rw [show drainStep parse (st, buf) chunk
        = ((splitLines (buf ++ chunk)).dropLast.foldl (processLine parse) st,
           (splitLines (buf ++ chunk)).getLastD []) from rfl]
    rw [ih _ _ (no_nl_getLastD (buf ++ chunk))]
    rw [List.flatten_cons, ← List.append_assoc]
    rw [splitLines_append (buf ++ chunk) cs.flatten]
    have hne := splitLines_ne_nil ((splitLines (buf ++ chunk)).getLastD [] ++ cs.flatten)
    rw [dropLast_append_ne_nil _ _ hne, List.foldl_append,
      getLastD_append_ne_nil _ _ _ hne]

theorem drainStream_closed_form (parse : List Char → Option DifyStreamData)
    (init : SSEState) (chunks : List (List Char)) :
    drainStream parse init chunks
      = (splitLines chunks.flatten).dropLast.foldl (processLine parse) init := by
  unfold drainStream
  rw [foldl_drainStep_eq parse chunks init [] (by simp)]
  simp

theorem dropWhile_ws_append_ne_nil (xs : List Char) (c : Char)
    (h : c.isWhitespace = false) :
    List.dropWhile Char.isWhitespace (xs ++ [c]) ≠ [] := by
  induction xs with
  | nil => simp [List.dropWhile, h]
  | cons x xs2 ih =>
    rw [List.cons_append, List.dropWhile_cons]
    by_cases hx : x.isWhitespace
    · simpa [hx] using ih
    · simp [hx]

theorem trimChars_head_not_ws (c : Char) (l : List Char)
    (h : c.isWhitespace = false) :
    (trimChars (c :: l)).isEmpty = false := by
  unfold trimChars
  rw [List.dropWhile_cons]
  simp only [h, Bool.false_eq_true, if_false, List.reverse_cons]
  have hne := dropWhile_ws_append_ne_nil l.reverse c h
  simpa [List.isEmpty_iff] using hne

theorem processLine_fullAnswer (parse : List Char → Option DifyStreamData)
    (st : SSEState) (line : List Char) :
    (processLine parse st line).fullAnswer = st.fullAnswer ++ lineAnswer parse line := by
  by_cases hd : startsWithChars "data: ".data line
  · have hne : (trimChars line).isEmpty = false := by
      cases line with
      | nil => cases hd
      | cons c cs =>
        have hc : 'd' = c := by
          have := hd
          simp only [show ("data: ".data) = 'd' :: "ata: ".data from rfl,
            startsWithChars, Bool.and_eq_true, decide_eq_true_eq] at this
          exact this.1
        exact trimChars_head_not_ws c cs (by rw [← hc]; decide)
    by_cases hdone : line.drop 6 = "[DONE]".data
    · simp [processLine, lineAnswer, hne, hd, hdone]
    · cases hp : parse (line.drop 6) with
      | none => simp [processLine, lineAnswer, hne, hd, hdone, hp]
      | some d =>
        by_cases he : d.event = "message" ∨ d.event = "agent_message"
        · simp [processLine, lineAnswer, hne, hd, hdone, hp, he]
        · simp [processLine, lineAnswer, hne, hd, hdone, hp, he]
  · by_cases ht : (trimChars line).isEmpty <;> simp [processLine, lineAnswer, ht, hd]

theorem foldl_processLine_fullAnswer (parse : List Char → Option DifyStreamData)
    (ls : List (List Char)) : ∀ st : SSEState,
    (ls.foldl (processLine parse) st).fullAnswer
      = st.fullAnswer ++ (ls.map (lineAnswer parse)).flatten := by
  induction ls with
  | nil => intro st; simp
  | cons l rest ih =>
    intro st
    rw [List.foldl_cons, ih, processLine_fullAnswer, List.map_cons,
      List.flatten_cons, List.append_assoc]

/-- C3: draining the SSE stream chunk by chunk (buffering the trailing
partial line) is equivalent to parsing the whole concatenated text at
once, for every stream content, every way of cutting it into chunks and
every JSON parse; the returned answer is the concatenation of the
`answer` fields of the `data: ` lines whose event is `message` or
`agent_message`. -/
theorem sse_chunked_eq_whole (parse : List Char → Option DifyStreamData)
    (conversationId : Option String) (chunks : List (List Char)) :
    drainStream parse (initSSE conversationId) chunks
      = drainStream parse (initSSE conversationId) [chunks.flatten] ∧
    (drainStream parse (initSSE conversationId) chunks).fullAnswer
      = wholeTextAnswer parse chunks.flatten := by
  have h1 := drainStream_closed_form parse (initSSE conversationId) chunks
  have h2 := drainStream_closed_form parse (initSSE conversationId) [chunks.flatten]
  constructor
  · rw [h1, h2]
    simp
  · rw [h1, foldl_processLine_fullAnswer]
    simp [initSSE, wholeTextAnswer]

end Clara
